import Mathlib

/-!
Shallow embedding of the in-memory gRPC entity store of `src/main.rs`
(service `MyGrpcService`): three collections (news, posts, users) held in
vectors, with the handler bodies translated to pure functions on lists.
Each handler locks one collection for its whole body, so a handler call is
one atomic function from the collection state (a `List`) to the new state
plus a result; errors (`tonic::Status::not_found`) become `Except Status`.
Ids are `i32` in the wire schema; they are embedded as `Int` together with
an explicit two's-complement wrap `wrap32` applied where the Rust code
performs `i32` arithmetic (`max + 1` in the insert handlers, compiled with
release-profile wrapping semantics).
-/

/-- Wire-level failure used by the handlers: `Status::not_found(msg)`. -/
inductive Status where
  | notFound : String → Status
deriving DecidableEq, Repr

/-- `news.proto` message `News` (fields as used by `src/main.rs`): id,
title, body, post_image, status. Ids and status are 32-bit integers on the
wire, embedded as `Int`. -/
structure News where
  id : Int
  title : String
  body : String
  post_image : String
  status : Int
deriving DecidableEq, Repr

/-- `posts.proto` message `Post`: user_id, id, title, body. -/
structure Post where
  user_id : Int
  id : Int
  title : String
  body : String
deriving DecidableEq, Repr

/-- Modelled from the spec: the `users.proto` message for a user address is
not in the repository source; the spec records only "optional structured
value", and no handler reads or writes its fields, so it is embedded as a
single text payload. -/
structure Address where
  payload : String
deriving DecidableEq, Repr

/-- Modelled from the spec: the `users.proto` message for a user company is
not in the repository source; the spec records only "optional structured
value", and no handler reads or writes its fields, so it is embedded as a
single text payload. -/
structure Company where
  payload : String
deriving DecidableEq, Repr

/-- `users.proto` message `User`: id, name, username, email, address,
phone, website, company (address and company optional). -/
structure User where
  id : Int
  name : String
  username : String
  email : String
  address : Option Address
  phone : String
  website : String
  company : Option Company
deriving DecidableEq, Repr

/-- `users.proto` message `PatchUserRequest`: id plus optional name,
username, email. -/
structure PatchUserRequest where
  id : Int
  name : Option String
  username : Option String
  email : Option String
deriving DecidableEq, Repr

/-- `posts.proto` message `PostResponse`: optional post. -/
structure PostResponse where
  post : Option Post
deriving DecidableEq, Repr

/-- `users.proto` message `UserResponse`: optional user. -/
structure UserResponse where
  user : Option User
deriving DecidableEq, Repr

/-- `posts.proto` message `DeleteResponse`: success flag and message. -/
structure PostDeleteResponse where
  success : Bool
  message : String
deriving DecidableEq, Repr

/-- `users.proto` message `DeleteResponse`: success flag and message. -/
structure UserDeleteResponse where
  success : Bool
  message : String
deriving DecidableEq, Repr

/-- Two's-complement wrap to the `i32` range `[-2^31, 2^31)`, the semantics
of overflowing `i32` addition in a release build (overflow checks off). -/
def wrap32 (n : Int) : Int :=
  (n + 2 ^ 31) % 2 ^ 32 - 2 ^ 31

/-- `iter().max()` on a list of ids: `none` on the empty list, otherwise
the maximum element. -/
def maxId : List Int → Option Int
  | [] => none
  | x :: xs =>
    match maxId xs with
    | none => some x
    | some m => some (max x m)

/-- The id-generation expression shared by the three insert handlers:
`iter().map(id).max().unwrap_or(0) + 1`, evaluated in `i32`. -/
def newId (ids : List Int) : Int :=
  wrap32 ((maxId ids).getD 0 + 1)

/-- Handler `get_news`: find the first news item with the requested id. -/
def get_news (store : List News) (id : Int) : Except Status News :=
  match store.find? (fun n => n.id == id) with
  | some news => .ok news
  | none => .error (Status.notFound ("News not found"))

/-- Handler `get_multiple_news`: keep exactly the news items whose id is in
the requested id list. -/
def get_multiple_news (store : List News) (ids : List Int) : List News :=
  store.filter (fun n => ids.contains n.id)

/-- Handler `delete_news`: `retain(|news| news.id != id)`, then not-found
when the length did not shrink. -/
def delete_news (store : List News) (id : Int) : List News × Except Status Unit :=
  let after := store.filter (fun n => !(n.id == id))
  if store.length == after.length then
    (after, .error (Status.notFound ("News not found")))
  else
    (after, .ok ())

/-- Handler `edit_news`: mutate title, body and post_image of the first
news item matching the request id, and answer with the request message
itself (`Ok(Response::new(new_news))`); not-found when no item matches. -/
def edit_news (store : List News) (req : News) : List News × Except Status News :=
  match store with
  | [] => ([], .error (Status.notFound ("News not found")))
  | n :: rest =>
    if n.id == req.id then
      ({ n with title := req.title, body := req.body, post_image := req.post_image } :: rest,
        .ok req)
    else
      let r := edit_news rest req
      (n :: r.1, r.2)

/-- The field writes `edit_news` performs on the matched item: title, body
and post_image from the request; id and status untouched. -/
def applyNewsEdit (n req : News) : News :=
  { n with title := req.title, body := req.body, post_image := req.post_image }

/-- Handler `add_news`: overwrite the request id with
`max().unwrap_or(0) + 1` and push the item. -/
def add_news (store : List News) (req : News) : List News × News :=
  let item : News := { req with id := newId (store.map News.id) }
  (store ++ [item], item)

/-- Handler `list_posts`: filter by `user_id` when the filter carries one,
otherwise clone the whole collection. -/
def list_posts (store : List Post) (user_id : Option Int) : List Post :=
  match user_id with
  | some uid => store.filter (fun p => p.user_id == uid)
  | none => store

/-- Handler `get_post`: find the first post with the requested id. -/
def get_post (store : List Post) (id : Int) : Except Status Post :=
  match store.find? (fun p => p.id == id) with
  | some post => .ok post
  | none => .error (Status.notFound ("Post not found"))

/-- Handler `create_post`: overwrite the request id with
`max().unwrap_or(0) + 1` and push the post. -/
def create_post (store : List Post) (req : Post) : List Post × PostResponse :=
  let item : Post := { req with id := newId (store.map Post.id) }
  (store ++ [item], { post := some item })

/-- Handler `update_post`: replace the first post matching the request id
with the request value and answer with the request value; not-found when no
post matches. -/
def update_post (store : List Post) (req : Post) : List Post × Except Status PostResponse :=
  match store with
  | [] => ([], .error (Status.notFound ("Post not found")))
  | p :: rest =>
    if p.id == req.id then
      (req :: rest, .ok { post := some req })
    else
      let r := update_post rest req
      (p :: r.1, r.2)

/-- Handler `delete_post`: `retain(|p| p.id != id)`, success exactly when
the length shrank. -/
def delete_post (store : List Post) (id : Int) :
    List Post × Except Status PostDeleteResponse :=
  let after := store.filter (fun p => !(p.id == id))
  if after.length < store.length then
    (after, .ok { success := true, message := "Post deleted" })
  else
    (after, .error (Status.notFound ("Post not found")))

/-- Handler `list_users`: clone the whole collection when the id filter is
empty, otherwise keep exactly the users whose id is in the filter set. -/
def list_users (store : List User) (filter : List Int) : List User :=
  if filter.isEmpty then store
  else store.filter (fun u => filter.contains u.id)

/-- Handler `get_user`: find the first user with the requested id. -/
def get_user (store : List User) (id : Int) : Except Status User :=
  match store.find? (fun u => u.id == id) with
  | some user => .ok user
  | none => .error (Status.notFound ("User not found"))

/-- Handler `create_user`: overwrite the request id with
`max().unwrap_or(0) + 1` and push the user. -/
def create_user (store : List User) (req : User) : List User × UserResponse :=
  let item : User := { req with id := newId (store.map User.id) }
  (store ++ [item], { user := some item })

/-- The field updates of `patch_user` on the matched user: each of name,
username, email is overwritten exactly when the request supplies it. -/
def applyUserPatch (u : User) (req : PatchUserRequest) : User :=
  let u1 := match req.name with
    | some n => { u with name := n }
    | none => u
  let u2 := match req.username with
    | some n => { u1 with username := n }
    | none => u1
  match req.email with
  | some e => { u2 with email := e }
  | none => u2

/-- Handler `patch_user`: apply the supplied optional fields to the first
user matching the request id and answer with a clone of the stored,
post-patch user; not-found when no user matches. -/
def patch_user (store : List User) (req : PatchUserRequest) :
    List User × Except Status UserResponse :=
  match store with
  | [] => ([], .error (Status.notFound ("User not found")))
  | u :: rest =>
    if u.id == req.id then
      (applyUserPatch u req :: rest, .ok { user := some (applyUserPatch u req) })
    else
      let r := patch_user rest req
      (u :: r.1, r.2)

/-- Handler `delete_user`: `retain(|u| u.id != id)`, success exactly when
the length shrank. -/
def delete_user (store : List User) (id : Int) :
    List User × Except Status UserDeleteResponse :=
  let after := store.filter (fun u => !(u.id == id))
  if after.length < store.length then
    (after, .ok { success := true, message := "User deleted" })
  else
    (after, .error (Status.notFound ("User not found")))

/-- The news collection seeded by `MyGrpcService::new`. -/
def seedNews : List News :=
  [ { id := 1, title := "Note 1", body := "Content 1", post_image := "Post image 1", status := 0 },
    { id := 2, title := "Note 2", body := "Content 2", post_image := "Post image 2", status := 1 },
    { id := 3, title := "Note 3", body := "Content 3", post_image := "Post image 3", status := 1 },
    { id := 4, title := "Note 4", body := "Content 4", post_image := "Post image 4", status := 1 },
    { id := 5, title := "Note 5", body := "Content 5", post_image := "Post image 5", status := 1 } ]

/-- The posts collection seeded by `MyGrpcService::new`. -/
def seedPosts : List Post :=
  [ { user_id := 1, id := 1, title := "Post 1", body := "Body 1" },
    { user_id := 1, id := 2, title := "Post 2", body := "Body 2" } ]

/-- The users collection seeded by `MyGrpcService::new`. -/
def seedUsers : List User :=
  [ { id := 1, name := "Leanne Graham", username := "Bret", email := "Sincere@april.biz",
      address := none, phone := "1-770-736-8031 x56442", website := "hildegard.org",
      company := none } ]

/-! ### Helper lemmas about id generation -/

theorem maxId_eq_none {l : List Int} (h : maxId l = none) : l = [] := by
  cases l with
  | nil => rfl
  | cons x xs =>
    simp only [maxId] at h
    cases hx : maxId xs <;> rw [hx] at h <;> simp at h

theorem maxId_mem {l : List Int} {m : Int} (h : maxId l = some m) : m ∈ l := by
  induction l generalizing m with
  | nil => simp [maxId] at h
  | cons x xs ih =>
    simp only [maxId] at h
    cases hx : maxId xs with
    | none =>
      rw [hx] at h
      simp only [Option.some.injEq] at h
      simp [← h]
    | some k =>
      rw [hx] at h
      simp only [Option.some.injEq] at h
      subst h
      rcases max_choice x k with h1 | h1 <;> rw [h1]
      · exact List.mem_cons_self x xs
      · exact List.mem_cons_of_mem x (ih hx)

theorem le_maxId {l : List Int} {m : Int} (h : maxId l = some m) :
    ∀ x ∈ l, x ≤ m := by
  induction l generalizing m with
  | nil => simp
  | cons a xs ih =>
    intro x hx
    simp only [maxId] at h
    cases hm : maxId xs with
    | none =>
      rw [hm] at h
      simp only [Option.some.injEq] at h
      subst h
      have hnil := maxId_eq_none hm
      subst hnil
      simp only [List.mem_singleton] at hx
      simp [hx]
    | some k =>
      rw [hm] at h
      simp only [Option.some.injEq] at h
      subst h
      rcases List.mem_cons.mp hx with rfl | hx'
      · exact le_max_left x k
      · exact le_trans (ih hm x hx') (le_max_right a k)

theorem wrap32_eq_self {n : Int} (h1 : -2 ^ 31 ≤ n) (h2 : n < 2 ^ 31) :
    wrap32 n = n := by
  unfold wrap32
  omega

theorem wrap32_range (n : Int) : -2 ^ 31 ≤ wrap32 n ∧ wrap32 n < 2 ^ 31 := by
  unfold wrap32
  omega

theorem wrap32_emod (n : Int) : wrap32 n % 2 ^ 32 = n % 2 ^ 32 := by
  unfold wrap32
  omega

theorem newId_nil : newId [] = 1 := by decide

theorem newId_eq_max_succ {ids : List Int} {m : Int} (h : maxId ids = some m)
    (h1 : -2 ^ 31 ≤ m) (h2 : m < 2 ^ 31 - 1) : newId ids = m + 1 := by
  unfold newId
  rw [h]
  show wrap32 (m + 1) = m + 1
  exact wrap32_eq_self (by omega) (by omega)

theorem lt_newId {ids : List Int} (h : ∀ x ∈ ids, -2 ^ 31 ≤ x ∧ x < 2 ^ 31 - 1) :
    ∀ x ∈ ids, x < newId ids := by
  intro x hx
  cases hm : maxId ids with
  | none =>
    have := maxId_eq_none hm
    subst this
    simp at hx
  | some m =>
    have hmem := maxId_mem hm
    have hb := h m hmem
    rw [newId_eq_max_succ hm hb.1 hb.2]
    have := le_maxId hm x hx
    omega

/-! ### Helper lemmas about the retain-based delete handlers -/

theorem filter_eq_of_length_eq {α : Type} {p : α → Bool} {l : List α}
    (h : (l.filter p).length = l.length) : l.filter p = l :=
  (List.filter_sublist l).eq_of_length h

theorem filter_ne_eq_self {α : Type} {f : α → Int} {idv : Int} {l : List α}
    (h : ∀ x ∈ l, f x ≠ idv) : l.filter (fun y => !(f y == idv)) = l := by
  rw [List.filter_eq_self]
  intro a ha
  simpa using h a ha

theorem filter_ne_length_lt {α : Type} {f : α → Int} {idv : Int} {l : List α}
    {x : α} (hx : x ∈ l) (hfx : f x = idv) :
    (l.filter (fun y => !(f y == idv))).length < l.length := by
  by_contra hcon
  push_neg at hcon
  have hle := List.length_filter_le (fun y => !(f y == idv)) l
  have heq := le_antisymm hle hcon
  have hself := filter_eq_of_length_eq heq
  have hx' : x ∈ l.filter (fun y => !(f y == idv)) := by
    rw [hself]
    exact hx
  rw [List.mem_filter] at hx'
  simp [hfx] at hx'

theorem filter_ne_length_of_nodup {α : Type} {f : α → Int} {idv : Int} :
    ∀ {l : List α}, (l.map f).Nodup → ∀ {x : α}, x ∈ l → f x = idv →
      (l.filter (fun y => !(f y == idv))).length + 1 = l.length := by
  intro l
  induction l with
  | nil =>
    intro _ x hx
    simp at hx
  | cons a rest ih =>
    intro hnd x hx hfx
    rw [List.map_cons, List.nodup_cons] at hnd
    by_cases ha : f a = idv
    · have hkeep : rest.filter (fun y => !(f y == idv)) = rest := by
        apply filter_ne_eq_self
        intro b hb hc
        exact hnd.1 (by rw [ha, ← hc]; exact List.mem_map_of_mem f hb)
      simp [List.filter_cons, ha, hkeep]
    · rcases List.mem_cons.mp hx with rfl | hx'
      · exact absurd hfx ha
      · have hrec := ih hnd.2 hx' hfx
        simp only [List.filter_cons]
        have hpa : (!(f a == idv)) = true := by simpa using ha
        rw [hpa]
        simp only [if_true, List.length_cons]
        omega

theorem find?_filter_ne {α : Type} {f : α → Int} {idv : Int} (l : List α) :
    (l.filter (fun y => !(f y == idv))).find? (fun y => f y == idv) = none := by
  rw [List.find?_eq_none]
  intro x hx
  rw [List.mem_filter] at hx
  simpa using hx.2

/-! ### Characterization of the first-match mutation handlers -/

theorem edit_news_not_found {store : List News} {req : News}
    (h : ∀ n ∈ store, n.id ≠ req.id) :
    edit_news store req = (store, .error (Status.notFound ("News not found"))) := by
  induction store with
  | nil => rfl
  | cons a rest ih =>
    have ha : (a.id == req.id) = false := by
      simpa using h a (List.mem_cons_self a rest)
    have hrec := ih (fun n hn => h n (List.mem_cons_of_mem a hn))
    simp [edit_news, ha, hrec]

theorem edit_news_found {store : List News} {req : News} {n : News}
    (hnd : (store.map News.id).Nodup) (hn : n ∈ store) (hid : n.id = req.id) :
    (edit_news store req).2 = .ok req
    ∧ ((edit_news store req).1).length = store.length
    ∧ applyNewsEdit n req ∈ (edit_news store req).1
    ∧ (∀ m ∈ store, m.id ≠ req.id → m ∈ (edit_news store req).1)
    ∧ (∀ m ∈ (edit_news store req).1, m = applyNewsEdit n req ∨ (m ∈ store ∧ m.id ≠ req.id))
    ∧ (edit_news store req).1.find? (fun m => m.id == req.id) = some (applyNewsEdit n req) := by
  induction store with
  | nil => simp at hn
  | cons a rest ih =>
    rw [List.map_cons, List.nodup_cons] at hnd
    by_cases haid : a.id = req.id
    · have hcond : (a.id == req.id) = true := by simpa using haid
      have hstep : edit_news (a :: rest) req = (applyNewsEdit a req :: rest, .ok req) := by
        simp [edit_news, hcond, applyNewsEdit]
      have hna : n = a := by
        rcases List.mem_cons.mp hn with h1 | hn'
        · exact h1
        · exact absurd (by rw [haid, ← hid]; exact List.mem_map_of_mem News.id hn') hnd.1
      rw [hstep, hna]
      refine ⟨rfl, by simp, List.mem_cons_self _ _, ?_, ?_, ?_⟩
      · intro m hm hmne
        rcases List.mem_cons.mp hm with h2 | hm'
        · exact absurd (h2 ▸ haid) hmne
        · exact List.mem_cons_of_mem _ hm'
      · intro m hm
        rcases List.mem_cons.mp hm with h2 | hm'
        · exact Or.inl h2
        · refine Or.inr ⟨List.mem_cons_of_mem a hm', fun hme => ?_⟩
          exact hnd.1 (by rw [haid, ← hme]; exact List.mem_map_of_mem News.id hm')
      · have hedid : ((applyNewsEdit a req).id == req.id) = true := by
          simp [applyNewsEdit, haid]
        simp [List.find?_cons, hedid]
    · have hcond : (a.id == req.id) = false := by simpa using haid
      have hstep : edit_news (a :: rest) req =
          (a :: (edit_news rest req).1, (edit_news rest req).2) := by
        simp [edit_news, hcond]
      have hn' : n ∈ rest := by
        rcases List.mem_cons.mp hn with h1 | hn'
        · exact absurd (h1 ▸ hid) haid
        · exact hn'
      have hrec := ih hnd.2 hn'
      rw [hstep]
      refine ⟨hrec.1, by simpa using hrec.2.1, List.mem_cons_of_mem a hrec.2.2.1, ?_, ?_, ?_⟩
      · intro m hm hmne
        rcases List.mem_cons.mp hm with h2 | hm'
        · exact h2 ▸ List.mem_cons_self _ _
        · exact List.mem_cons_of_mem a (hrec.2.2.2.1 m hm' hmne)
      · intro m hm
        rcases List.mem_cons.mp hm with h2 | hm'
        · exact Or.inr ⟨h2 ▸ List.mem_cons_self _ _, h2 ▸ haid⟩
        · rcases hrec.2.2.2.2.1 m hm' with hcase | hcase
          · exact Or.inl hcase
          · exact Or.inr ⟨List.mem_cons_of_mem a hcase.1, hcase.2⟩
      · simp only [List.find?_cons, hcond]
        exact hrec.2.2.2.2.2

theorem update_post_not_found {store : List Post} {req : Post}
    (h : ∀ p ∈ store, p.id ≠ req.id) :
    update_post store req = (store, .error (Status.notFound ("Post not found"))) := by
  induction store with
  | nil => rfl
  | cons a rest ih =>
    have ha : (a.id == req.id) = false := by
      simpa using h a (List.mem_cons_self a rest)
    have hrec := ih (fun p hp => h p (List.mem_cons_of_mem a hp))
    simp [update_post, ha, hrec]

theorem update_post_found {store : List Post} {req : Post} {p : Post}
    (hnd : (store.map Post.id).Nodup) (hp : p ∈ store) (hid : p.id = req.id) :
    (update_post store req).2 = .ok { post := some req }
    ∧ ((update_post store req).1).length = store.length
    ∧ req ∈ (update_post store req).1
    ∧ (∀ q ∈ store, q.id ≠ req.id → q ∈ (update_post store req).1)
    ∧ (∀ q ∈ (update_post store req).1, q = req ∨ (q ∈ store ∧ q.id ≠ req.id))
    ∧ (update_post store req).1.find? (fun q => q.id == req.id) = some req := by
  induction store with
  | nil => simp at hp
  | cons a rest ih =>
    rw [List.map_cons, List.nodup_cons] at hnd
    by_cases haid : a.id = req.id
    · have hcond : (a.id == req.id) = true := by simpa using haid
      have hstep : update_post (a :: rest) req = (req :: rest, .ok { post := some req }) := by
        simp [update_post, hcond]
      rw [hstep]
      refine ⟨rfl, by simp, List.mem_cons_self _ _, ?_, ?_, ?_⟩
      · intro q hq hqne
        rcases List.mem_cons.mp hq with h2 | hq'
        · exact absurd (h2 ▸ haid) hqne
        · exact List.mem_cons_of_mem _ hq'
      · intro q hq
        rcases List.mem_cons.mp hq with h2 | hq'
        · exact Or.inl h2
        · refine Or.inr ⟨List.mem_cons_of_mem a hq', fun hqe => ?_⟩
          exact hnd.1 (by rw [haid, ← hqe]; exact List.mem_map_of_mem Post.id hq')
      · simp [List.find?_cons]
    · have hcond : (a.id == req.id) = false := by simpa using haid
      have hstep : update_post (a :: rest) req =
          (a :: (update_post rest req).1, (update_post rest req).2) := by
        simp [update_post, hcond]
      have hp' : p ∈ rest := by
        rcases List.mem_cons.mp hp with h1 | hp'
        · exact absurd (h1 ▸ hid) haid
        · exact hp'
      have hrec := ih hnd.2 hp'
      rw [hstep]
      refine ⟨hrec.1, by simpa using hrec.2.1, List.mem_cons_of_mem a hrec.2.2.1, ?_, ?_, ?_⟩
      · intro q hq hqne
        rcases List.mem_cons.mp hq with h2 | hq'
        · exact h2 ▸ List.mem_cons_self _ _
        · exact List.mem_cons_of_mem a (hrec.2.2.2.1 q hq' hqne)
      · intro q hq
        rcases List.mem_cons.mp hq with h2 | hq'
        · exact Or.inr ⟨h2 ▸ List.mem_cons_self _ _, h2 ▸ haid⟩
        · rcases hrec.2.2.2.2.1 q hq' with hcase | hcase
          · exact Or.inl hcase
          · exact Or.inr ⟨List.mem_cons_of_mem a hcase.1, hcase.2⟩
      · simp only [List.find?_cons, hcond]
        exact hrec.2.2.2.2.2

theorem applyUserPatch_fields (u : User) (req : PatchUserRequest) :
    (applyUserPatch u req).id = u.id
    ∧ (applyUserPatch u req).phone = u.phone
    ∧ (applyUserPatch u req).website = u.website
    ∧ (applyUserPatch u req).address = u.address
    ∧ (applyUserPatch u req).company = u.company
    ∧ (applyUserPatch u req).name = req.name.getD u.name
    ∧ (applyUserPatch u req).username = req.username.getD u.username
    ∧ (applyUserPatch u req).email = req.email.getD u.email := by
  obtain ⟨rid, rname, rusername, remail⟩ := req
  cases rname <;> cases rusername <;> cases remail <;>
    exact ⟨rfl, rfl, rfl, rfl, rfl, rfl, rfl, rfl⟩

theorem patch_user_not_found {store : List User} {req : PatchUserRequest}
    (h : ∀ u ∈ store, u.id ≠ req.id) :
    patch_user store req = (store, .error (Status.notFound ("User not found"))) := by
  induction store with
  | nil => rfl
  | cons a rest ih =>
    have ha : (a.id == req.id) = false := by
      simpa using h a (List.mem_cons_self a rest)
    have hrec := ih (fun u hu => h u (List.mem_cons_of_mem a hu))
    simp [patch_user, ha, hrec]

theorem patch_user_found {store : List User} {req : PatchUserRequest} {u : User}
    (hnd : (store.map User.id).Nodup) (hu : u ∈ store) (hid : u.id = req.id) :
    (patch_user store req).2 = .ok { user := some (applyUserPatch u req) }
    ∧ ((patch_user store req).1).length = store.length
    ∧ applyUserPatch u req ∈ (patch_user store req).1
    ∧ (∀ v ∈ store, v.id ≠ req.id → v ∈ (patch_user store req).1)
    ∧ (∀ v ∈ (patch_user store req).1, v = applyUserPatch u req ∨ (v ∈ store ∧ v.id ≠ req.id))
    ∧ (patch_user store req).1.find? (fun v => v.id == req.id) = some (applyUserPatch u req) := by
  induction store with
  | nil => simp at hu
  | cons a rest ih =>
    rw [List.map_cons, List.nodup_cons] at hnd
    by_cases haid : a.id = req.id
    · have hcond : (a.id == req.id) = true := by simpa using haid
      have hstep : patch_user (a :: rest) req =
          (applyUserPatch a req :: rest, .ok { user := some (applyUserPatch a req) }) := by
        simp [patch_user, hcond]
      have hua : u = a := by
        rcases List.mem_cons.mp hu with h1 | hu'
        · exact h1
        · exact absurd (by rw [haid, ← hid]; exact List.mem_map_of_mem User.id hu') hnd.1
      rw [hstep, hua]
      refine ⟨rfl, by simp, List.mem_cons_self _ _, ?_, ?_, ?_⟩
      · intro v hv hvne
        rcases List.mem_cons.mp hv with h2 | hv'
        · exact absurd (h2 ▸ haid) hvne
        · exact List.mem_cons_of_mem _ hv'
      · intro v hv
        rcases List.mem_cons.mp hv with h2 | hv'
        · exact Or.inl h2
        · refine Or.inr ⟨List.mem_cons_of_mem a hv', fun hve => ?_⟩
          exact hnd.1 (by rw [haid, ← hve]; exact List.mem_map_of_mem User.id hv')
      · have hpid : ((applyUserPatch a req).id == req.id) = true := by
          simp [(applyUserPatch_fields a req).1, haid]
        simp [List.find?_cons, hpid]
    · have hcond : (a.id == req.id) = false := by simpa using haid
      have hstep : patch_user (a :: rest) req =
          (a :: (patch_user rest req).1, (patch_user rest req).2) := by
        simp [patch_user, hcond]
      have hu' : u ∈ rest := by
        rcases List.mem_cons.mp hu with h1 | hu'
        · exact absurd (h1 ▸ hid) haid
        · exact hu'
      have hrec := ih hnd.2 hu'
      rw [hstep]
      refine ⟨hrec.1, by simpa using hrec.2.1, List.mem_cons_of_mem a hrec.2.2.1, ?_, ?_, ?_⟩
      · intro v hv hvne
        rcases List.mem_cons.mp hv with h2 | hv'
        · exact h2 ▸ List.mem_cons_self _ _
        · exact List.mem_cons_of_mem a (hrec.2.2.2.1 v hv' hvne)
      · intro v hv
        rcases List.mem_cons.mp hv with h2 | hv'
        · exact Or.inr ⟨h2 ▸ List.mem_cons_self _ _, h2 ▸ haid⟩
        · rcases hrec.2.2.2.2.1 v hv' with hcase | hcase
          · exact Or.inl hcase
          · exact Or.inr ⟨List.mem_cons_of_mem a hcase.1, hcase.2⟩
      · simp only [List.find?_cons, hcond]
        exact hrec.2.2.2.2.2

/-! ### More helper lemmas: freshness, append lookup, delete branching -/

theorem newId_not_mem {ids : List Int}
    (h : ∀ x ∈ ids, -2 ^ 31 ≤ x ∧ x < 2 ^ 31 - 1) : newId ids ∉ ids := by
  intro hmem
  exact lt_irrefl _ (lt_newId h _ hmem)

theorem newId_boundary {ids : List Int} (hle : ∀ x ∈ ids, x ≤ 2 ^ 31 - 1)
    (hmem : (2 ^ 31 - 1 : Int) ∈ ids) : newId ids = -2 ^ 31 := by
  have hmax : maxId ids = some (2 ^ 31 - 1) := by
    cases hm : maxId ids with
    | none =>
      have := maxId_eq_none hm
      subst this
      simp at hmem
    | some m =>
      have h1 : m ≤ 2 ^ 31 - 1 := hle m (maxId_mem hm)
      have h2 : (2 ^ 31 - 1 : Int) ≤ m := le_maxId hm _ hmem
      have : m = 2 ^ 31 - 1 := le_antisymm h1 h2
      rw [this]
  unfold newId
  rw [hmax]
  show wrap32 (2 ^ 31 - 1 + 1) = -2 ^ 31
  unfold wrap32
  omega

theorem nodup_append_fresh {ids : List Int} (hnd : ids.Nodup) (hfresh : newId ids ∉ ids) :
    (ids ++ [newId ids]).Nodup :=
  List.Nodup.append hnd (List.nodup_singleton _) (List.disjoint_singleton.mpr hfresh)

theorem find?_append_fresh {α : Type} {f : α → Int} {l : List α} {item : α}
    (h : ∀ x ∈ l, f x ≠ f item) :
    (l ++ [item]).find? (fun y => f y == f item) = some item := by
  rw [List.find?_append]
  have h1 : l.find? (fun y => f y == f item) = none := by
    rw [List.find?_eq_none]
    intro x hx
    simpa using h x hx
  rw [h1, Option.none_or]
  simp [List.find?_cons]

theorem delete_news_found_eq {ns : List News} {idv : Int}
    (h : (ns.filter (fun n => !(n.id == idv))).length ≠ ns.length) :
    delete_news ns idv = (ns.filter (fun n => !(n.id == idv)), .ok ()) := by
  have hcond : (ns.length == (ns.filter (fun n => !(n.id == idv))).length) = false := by
    simp
    omega
  simp [delete_news, hcond]

theorem delete_news_missing_eq {ns : List News} {idv : Int}
    (h : ∀ n ∈ ns, n.id ≠ idv) :
    delete_news ns idv = (ns, .error (Status.notFound ("News not found"))) := by
  have hself := filter_ne_eq_self (f := News.id) h
  simp [delete_news, hself]

theorem delete_post_found_eq {ps : List Post} {idv : Int}
    (h : (ps.filter (fun p => !(p.id == idv))).length < ps.length) :
    delete_post ps idv =
      (ps.filter (fun p => !(p.id == idv)), .ok { success := true, message := "Post deleted" }) := by
  simp [delete_post, h]

theorem delete_post_missing_eq {ps : List Post} {idv : Int}
    (h : ∀ p ∈ ps, p.id ≠ idv) :
    delete_post ps idv = (ps, .error (Status.notFound ("Post not found"))) := by
  have hself := filter_ne_eq_self (f := Post.id) h
  simp [delete_post, hself]

/-! ### Claim theorems -/

/-- C1: for each of the three collections (news, posts, users), the create
handler assigns the new entity the id computed from the maximum existing id
by the 32-bit successor — exactly (max existing id) + 1 whenever the maximum
is a valid `i32` below 2^31 - 1, and 1 when the collection is empty —
regardless of any id supplied in the request body, and both the returned
entity and the stored one carry this assigned id. -/
theorem insert_assigns_next_id
    (ns : List News) (nreq : News) (ps : List Post) (preq : Post)
    (us : List User) (ureq : User) :
    ((add_news ns nreq).2.id = newId (ns.map News.id)
      ∧ (ns = [] → (add_news ns nreq).2.id = 1)
      ∧ (∀ m : Int, maxId (ns.map News.id) = some m → -2 ^ 31 ≤ m → m < 2 ^ 31 - 1 →
          (add_news ns nreq).2.id = m + 1)
      ∧ (∀ rid : Int, (add_news ns { nreq with id := rid }).2 = (add_news ns nreq).2)
      ∧ (add_news ns nreq).1 = ns ++ [(add_news ns nreq).2])
    ∧ ((∃ item : Post, (create_post ps preq).2 = { post := some item }
          ∧ item.id = newId (ps.map Post.id)
          ∧ (create_post ps preq).1 = ps ++ [item])
      ∧ (ps = [] → newId (ps.map Post.id) = 1)
      ∧ (∀ m : Int, maxId (ps.map Post.id) = some m → -2 ^ 31 ≤ m → m < 2 ^ 31 - 1 →
          newId (ps.map Post.id) = m + 1)
      ∧ (∀ rid : Int, (create_post ps { preq with id := rid }).2 = (create_post ps preq).2))
    ∧ ((∃ item : User, (create_user us ureq).2 = { user := some item }
          ∧ item.id = newId (us.map User.id)
          ∧ (create_user us ureq).1 = us ++ [item])
      ∧ (us = [] → newId (us.map User.id) = 1)
      ∧ (∀ m : Int, maxId (us.map User.id) = some m → -2 ^ 31 ≤ m → m < 2 ^ 31 - 1 →
          newId (us.map User.id) = m + 1)
      ∧ (∀ rid : Int, (create_user us { ureq with id := rid }).2 = (create_user us ureq).2)) := by
  refine ⟨⟨rfl, ?_, ?_, fun rid => rfl, rfl⟩,
    ⟨⟨{ preq with id := newId (ps.map Post.id) }, rfl, rfl, rfl⟩, ?_, ?_, fun rid => rfl⟩,
    ⟨{ ureq with id := newId (us.map User.id) }, rfl, rfl, rfl⟩, ?_, ?_, fun rid => rfl⟩
  · intro h
    subst h
    exact newId_nil
  · intro m hm h1 h2
    exact newId_eq_max_succ hm h1 h2
  · intro h
    subst h
    exact newId_nil
  · intro m hm h1 h2
    exact newId_eq_max_succ hm h1 h2
  · intro h
    subst h
    exact newId_nil
  · intro m hm h1 h2
    exact newId_eq_max_succ hm h1 h2

/-- Witness for C1 at a concrete state: inserting into a news collection
whose maximum id is 5 assigns id 6, and into empty post and user
collections assigns id 1. -/
theorem insert_assigns_next_id_witness :
    (add_news seedNews
        { id := 99, title := "t", body := "c", post_image := "j", status := 1 }).2.id = 5 + 1
    ∧ newId (([] : List Post).map Post.id) = 1
    ∧ newId (([] : List User).map User.id) = 1 := by
  have h := insert_assigns_next_id seedNews
    { id := 99, title := "t", body := "c", post_image := "j", status := 1 }
    [] { user_id := 1, id := 0, title := "t", body := "b" }
    [] { id := 0, name := "n", username := "u", email := "e", address := none,
         phone := "p", website := "w", company := none }
  exact ⟨h.1.2.2.1 5 (by decide) (by decide) (by decide),
    h.2.1.2.1 rfl, h.2.2.2.1 rfl⟩

/-- C10: ids are 32-bit signed integers and the insert handlers compute
max-plus-one in 32-bit arithmetic: the assigned id always lies in the `i32`
range and is congruent to max+1 modulo 2^32; whenever every existing id is a
valid `i32` strictly below 2^31 - 1 the assigned id is strictly greater than
all existing ids, hence fresh and uniqueness-preserving; when an entity with
id 2^31 - 1 is present (and ids do not exceed it), the computation wraps to
-2^31 and the assigned id is no longer above all existing ids. -/
theorem insert_id_wraps_32bit (ns : List News) (nreq : News) (ps : List Post) (preq : Post) :
    ((∀ n ∈ ns, -2 ^ 31 ≤ n.id ∧ n.id < 2 ^ 31 - 1) →
        (∀ n ∈ ns, n.id < (add_news ns nreq).2.id)
        ∧ (add_news ns nreq).2.id ∉ ns.map News.id
        ∧ ((ns.map News.id).Nodup → ((add_news ns nreq).1.map News.id).Nodup))
    ∧ (-2 ^ 31 ≤ (add_news ns nreq).2.id ∧ (add_news ns nreq).2.id < 2 ^ 31)
    ∧ (add_news ns nreq).2.id % 2 ^ 32 = ((maxId (ns.map News.id)).getD 0 + 1) % 2 ^ 32
    ∧ ((∀ n ∈ ns, n.id ≤ 2 ^ 31 - 1) → (∃ n ∈ ns, n.id = 2 ^ 31 - 1) →
        (add_news ns nreq).2.id = -2 ^ 31 ∧ ∃ n ∈ ns, (add_news ns nreq).2.id < n.id)
    ∧ ((∀ p ∈ ps, -2 ^ 31 ≤ p.id ∧ p.id < 2 ^ 31 - 1) →
        (∀ p ∈ ps, p.id < newId (ps.map Post.id))
        ∧ newId (ps.map Post.id) ∉ ps.map Post.id
        ∧ ((ps.map Post.id).Nodup → ((create_post ps preq).1.map Post.id).Nodup))
    ∧ ((∀ p ∈ ps, p.id ≤ 2 ^ 31 - 1) → (∃ p ∈ ps, p.id = 2 ^ 31 - 1) →
        newId (ps.map Post.id) = -2 ^ 31 ∧ ∃ p ∈ ps, newId (ps.map Post.id) < p.id) := by
  refine ⟨?_, wrap32_range _, wrap32_emod _, ?_, ?_, ?_⟩
  · intro h
    have hids : ∀ x ∈ ns.map News.id, -2 ^ 31 ≤ x ∧ x < 2 ^ 31 - 1 := by
      intro x hx
      obtain ⟨k, hk, rfl⟩ := List.mem_map.mp hx
      exact h k hk
    refine ⟨?_, newId_not_mem hids, ?_⟩
    · intro n hn
      exact lt_newId hids n.id (List.mem_map_of_mem News.id hn)
    · intro hnd
      have hmap : (add_news ns nreq).1.map News.id
          = ns.map News.id ++ [newId (ns.map News.id)] := by
        simp [add_news]
      rw [hmap]
      exact nodup_append_fresh hnd (newId_not_mem hids)
  · rintro hle ⟨n, hn, hneq⟩
    have hid : (add_news ns nreq).2.id = -2 ^ 31 := by
      show newId (ns.map News.id) = -2 ^ 31
      apply newId_boundary
      · intro x hx
        obtain ⟨k, hk, rfl⟩ := List.mem_map.mp hx
        exact hle k hk
      · rw [← hneq]
        exact List.mem_map_of_mem News.id hn
    refine ⟨hid, n, hn, ?_⟩
    rw [hid, hneq]
    decide
  · intro h
    have hids : ∀ x ∈ ps.map Post.id, -2 ^ 31 ≤ x ∧ x < 2 ^ 31 - 1 := by
      intro x hx
      obtain ⟨k, hk, rfl⟩ := List.mem_map.mp hx
      exact h k hk
    refine ⟨?_, newId_not_mem hids, ?_⟩
    · intro p hp
      exact lt_newId hids p.id (List.mem_map_of_mem Post.id hp)
    · intro hnd
      have hmap : (create_post ps preq).1.map Post.id
          = ps.map Post.id ++ [newId (ps.map Post.id)] := by
        simp [create_post]
      rw [hmap]
      exact nodup_append_fresh hnd (newId_not_mem hids)
  · rintro hle ⟨p, hp, hpeq⟩
    have hid : newId (ps.map Post.id) = -2 ^ 31 := by
      apply newId_boundary
      · intro x hx
        obtain ⟨k, hk, rfl⟩ := List.mem_map.mp hx
        exact hle k hk
      · rw [← hpeq]
        exact List.mem_map_of_mem Post.id hp
    refine ⟨hid, p, hp, ?_⟩
    rw [hid, hpeq]
    decide

/-- Witness for C10: on the seed news the assigned id 6 is fresh, while on a
collection holding id 2^31 - 1 the assigned id wraps to -2^31. -/
theorem insert_id_wraps_32bit_witness :
    ((add_news seedNews
        { id := 0, title := "t", body := "c", post_image := "j", status := 0 }).2.id
      ∉ seedNews.map News.id)
    ∧ (add_news
        [({ id := 2147483647, title := "n", body := "b", post_image := "i", status := 0 } : News)]
        { id := 0, title := "t", body := "c", post_image := "j", status := 0 }).2.id = -2 ^ 31 := by
  have h1 := insert_id_wraps_32bit seedNews
    { id := 0, title := "t", body := "c", post_image := "j", status := 0 }
    [] { user_id := 1, id := 0, title := "t", body := "b" }
  have h2 := insert_id_wraps_32bit
    [({ id := 2147483647, title := "n", body := "b", post_image := "i", status := 0 } : News)]
    { id := 0, title := "t", body := "c", post_image := "j", status := 0 }
    [] { user_id := 1, id := 0, title := "t", body := "b" }
  refine ⟨(h1.1 (by decide)).2.1, (h2.2.2.2.1 (by decide) ?_).1⟩
  exact ⟨_, List.mem_cons_self _ _, by decide⟩

/-- C5: performing add_news and then get_news on the returned id yields the
inserted entity: the stored item equals the request with only the id
replaced by the assigned one, and the lookup returns exactly it (stated for
collections of valid ids below the 2^31 - 1 wrap boundary, where the
assigned id is fresh). -/
theorem insert_get_roundtrip (ns : List News) (req : News)
    (h : ∀ n ∈ ns, -2 ^ 31 ≤ n.id ∧ n.id < 2 ^ 31 - 1) :
    ∃ item : News,
      add_news ns req = (ns ++ [item], item)
      ∧ item = { req with id := item.id }
      ∧ item.id = newId (ns.map News.id)
      ∧ get_news (ns ++ [item]) item.id = .ok item := by
  refine ⟨{ req with id := newId (ns.map News.id) }, rfl, rfl, rfl, ?_⟩
  have hne : ∀ x ∈ ns,
      News.id x ≠ News.id ({ req with id := newId (ns.map News.id) } : News) := by
    intro x hx
    have hids : ∀ y ∈ ns.map News.id, -2 ^ 31 ≤ y ∧ y < 2 ^ 31 - 1 := by
      intro y hy
      obtain ⟨k, hk, rfl⟩ := List.mem_map.mp hy
      exact h k hk
    have hlt := lt_newId hids x.id (List.mem_map_of_mem News.id hx)
    show x.id ≠ newId (ns.map News.id)
    omega
  have hfind := find?_append_fresh hne
  unfold get_news
  rw [hfind]

/-- Witness for C5 on the seed news collection. -/
theorem insert_get_roundtrip_witness :
    ∃ item : News,
      add_news seedNews { id := 0, title := "t", body := "c", post_image := "j", status := 1 }
        = (seedNews ++ [item], item)
      ∧ item = { id := item.id, title := "t", body := "c", post_image := "j", status := 1 }
      ∧ item.id = newId (seedNews.map News.id)
      ∧ get_news (seedNews ++ [item]) item.id = .ok item :=
  insert_get_roundtrip seedNews
    { id := 0, title := "t", body := "c", post_image := "j", status := 1 } (by decide)

/-- C3: deleting an existing id removes exactly one entity (under the
unique-ids invariant), a subsequent get of that id fails with not-found, and
a repeated delete fails with not-found leaving the collection unchanged;
deleting a nonexistent id fails with not-found and leaves the collection
unchanged — for both the news and the post collection. -/
theorem delete_exact_and_idempotent (ns : List News) (ps : List Post) (idv : Int)
    (hndn : (ns.map News.id).Nodup) (hndp : (ps.map Post.id).Nodup) :
    ((∃ n ∈ ns, n.id = idv) →
        (delete_news ns idv).2 = .ok ()
        ∧ ((delete_news ns idv).1).length + 1 = ns.length
        ∧ get_news (delete_news ns idv).1 idv = .error (Status.notFound ("News not found"))
        ∧ delete_news (delete_news ns idv).1 idv
            = ((delete_news ns idv).1, .error (Status.notFound ("News not found"))))
    ∧ ((¬ ∃ n ∈ ns, n.id = idv) →
        delete_news ns idv = (ns, .error (Status.notFound ("News not found"))))
    ∧ ((∃ p ∈ ps, p.id = idv) →
        (delete_post ps idv).2 = .ok { success := true, message := "Post deleted" }
        ∧ ((delete_post ps idv).1).length + 1 = ps.length
        ∧ get_post (delete_post ps idv).1 idv = .error (Status.notFound ("Post not found"))
        ∧ delete_post (delete_post ps idv).1 idv
            = ((delete_post ps idv).1, .error (Status.notFound ("Post not found"))))
    ∧ ((¬ ∃ p ∈ ps, p.id = idv) →
        delete_post ps idv = (ps, .error (Status.notFound ("Post not found")))) := by
  refine ⟨?_, ?_, ?_, ?_⟩
  · rintro ⟨n, hn, hneq⟩
    have hlen := filter_ne_length_of_nodup hndn hn hneq
    have hne : (ns.filter (fun m => !(m.id == idv))).length ≠ ns.length := by omega
    have hstep := delete_news_found_eq hne
    have hnotin : ∀ m ∈ ns.filter (fun m => !(m.id == idv)), m.id ≠ idv := by
      intro m hm
      rw [List.mem_filter] at hm
      simpa using hm.2
    refine ⟨by rw [hstep], ?_, ?_, ?_⟩
    · rw [hstep]
      exact hlen
    · rw [hstep]
      unfold get_news
      rw [find?_filter_ne ns]
    · rw [hstep]
      exact delete_news_missing_eq hnotin
  · intro hnex
    push_neg at hnex
    exact delete_news_missing_eq hnex
  · rintro ⟨p, hp, hpeq⟩
    have hlen := filter_ne_length_of_nodup hndp hp hpeq
    have hlt : (ps.filter (fun q => !(q.id == idv))).length < ps.length := by omega
    have hstep := delete_post_found_eq hlt
    have hnotin : ∀ q ∈ ps.filter (fun q => !(q.id == idv)), q.id ≠ idv := by
      intro q hq
      rw [List.mem_filter] at hq
      simpa using hq.2
    refine ⟨by rw [hstep], ?_, ?_, ?_⟩
    · rw [hstep]
      exact hlen
    · rw [hstep]
      unfold get_post
      rw [find?_filter_ne ps]
    · rw [hstep]
      exact delete_post_missing_eq hnotin
  · intro hnex
    push_neg at hnex
    exact delete_post_missing_eq hnex

/-- Witness for C3 on the seed collections: deleting news id 3 succeeds and
shrinks the collection by one; deleting news id 6 reports not-found and
leaves the collection unchanged. -/
theorem delete_exact_and_idempotent_witness :
    (delete_news seedNews 3).2 = .ok ()
    ∧ ((delete_news seedNews 3).1).length + 1 = seedNews.length
    ∧ delete_news seedNews 6 = (seedNews, .error (Status.notFound ("News not found"))) := by
  have h3 := delete_exact_and_idempotent seedNews seedPosts 3 (by decide) (by decide)
  have h6 := delete_exact_and_idempotent seedNews seedPosts 6 (by decide) (by decide)
  have hex : ∃ n ∈ seedNews, n.id = 3 := by decide
  have hnex : ¬ ∃ n ∈ seedNews, n.id = 6 := by decide
  exact ⟨(h3.1 hex).1, (h3.1 hex).2.1, h6.2.1 hnex⟩

/-- C6: listing with no filter (absent user_id for posts, empty id set for
users) returns the full collection; listing with a filter returns exactly
the matching entities — membership is equivalent to matching, and
multiplicities are preserved, so no more and no less. -/
theorem list_filter_exact (ps : List Post) (us : List User) (uid : Int) (ids : List Int) :
    list_posts ps none = ps
    ∧ (list_posts ps none).length = ps.length
    ∧ (∀ p : Post, p ∈ list_posts ps (some uid) ↔ (p ∈ ps ∧ p.user_id = uid))
    ∧ (∀ p : Post, (list_posts ps (some uid)).count p
        = if p.user_id = uid then ps.count p else 0)
    ∧ list_users us [] = us
    ∧ (list_users us []).length = us.length
    ∧ (ids ≠ [] →
        (∀ u : User, u ∈ list_users us ids ↔ (u ∈ us ∧ u.id ∈ ids))
        ∧ (∀ u : User, (list_users us ids).count u
            = if u.id ∈ ids then us.count u else 0)) := by
  have hpdef : list_posts ps (some uid) = ps.filter (fun q => q.user_id == uid) := rfl
  refine ⟨rfl, rfl, ?_, ?_, rfl, rfl, ?_⟩
  · intro p
    rw [hpdef, List.mem_filter]
    simp
  · intro p
    by_cases h : p.user_id = uid
    · rw [if_pos h, hpdef]
      exact List.count_filter (by simpa using h)
    · rw [if_neg h, hpdef, List.count_eq_zero]
      intro hmem
      rw [List.mem_filter] at hmem
      exact h (by simpa using hmem.2)
  · intro hne
    have hudef : list_users us ids = us.filter (fun u => ids.contains u.id) := by
      have hemp : ids.isEmpty = false := List.isEmpty_eq_false.mpr hne
      simp [list_users, hemp]
    constructor
    · intro u
      rw [hudef, List.mem_filter]
      simp
    · intro u
      by_cases h : u.id ∈ ids
      · rw [if_pos h, hudef]
        exact List.count_filter (by simpa using h)
      · rw [if_neg h, hudef, List.count_eq_zero]
        intro hmem
        rw [List.mem_filter] at hmem
        exact h (by simpa using hmem.2)

/-- Witness for C6 on the seed collections: the unfiltered user listing
returns the single seed user, and filtering by the id set containing only 1
returns exactly that user. -/
theorem list_filter_exact_witness :
    list_users seedUsers [] = seedUsers
    ∧ (∀ u : User, u ∈ list_users seedUsers [1] ↔ (u ∈ seedUsers ∧ u.id ∈ [1])) := by
  have h := list_filter_exact seedPosts seedUsers 1 [1]
  exact ⟨h.2.2.2.2.1, (h.2.2.2.2.2.2 (by decide)).1⟩

/-- C7: an update (full replace for posts, edit for news) whose id matches
no existing entity fails with not-found and leaves the collection unchanged
— no upsert; when the id exists, the stored post is replaced by the request
value (under the unique-ids invariant) and the lookup then returns it. -/
theorem update_requires_existing (ps : List Post) (req : Post) (ns : List News) (nreq : News)
    (hnd : (ps.map Post.id).Nodup) :
    ((¬ ∃ p ∈ ps, p.id = req.id) →
        update_post ps req = (ps, .error (Status.notFound ("Post not found"))))
    ∧ ((∃ p ∈ ps, p.id = req.id) →
        (update_post ps req).2 = .ok { post := some req }
        ∧ req ∈ (update_post ps req).1
        ∧ ((update_post ps req).1).length = ps.length
        ∧ get_post (update_post ps req).1 req.id = .ok req
        ∧ (∀ q ∈ ps, q.id ≠ req.id → q ∈ (update_post ps req).1)
        ∧ (∀ q ∈ (update_post ps req).1, q = req ∨ (q ∈ ps ∧ q.id ≠ req.id)))
    ∧ ((¬ ∃ n ∈ ns, n.id = nreq.id) →
        edit_news ns nreq = (ns, .error (Status.notFound ("News not found")))) := by
  refine ⟨?_, ?_, ?_⟩
  · intro hnex
    push_neg at hnex
    exact update_post_not_found hnex
  · rintro ⟨p, hp, hpeq⟩
    have h := update_post_found hnd hp hpeq
    refine ⟨h.1, h.2.2.1, h.2.1, ?_, h.2.2.2.1, h.2.2.2.2.1⟩
    unfold get_post
    rw [h.2.2.2.2.2]
  · intro hnex
    push_neg at hnex
    exact edit_news_not_found hnex

/-- Witness for C7 on the seed posts: updating id 9 reports not-found and
leaves the collection unchanged, while updating id 1 succeeds. -/
theorem update_requires_existing_witness :
    update_post seedPosts { user_id := 1, id := 9, title := "t", body := "b" }
      = (seedPosts, .error (Status.notFound ("Post not found")))
    ∧ (update_post seedPosts { user_id := 2, id := 1, title := "t", body := "b" }).2
      = .ok { post := some { user_id := 2, id := 1, title := "t", body := "b" } } := by
  have h9 := update_requires_existing seedPosts
    { user_id := 1, id := 9, title := "t", body := "b" } seedNews
    { id := 1, title := "x", body := "y", post_image := "z", status := 0 } (by decide)
  have h1 := update_requires_existing seedPosts
    { user_id := 2, id := 1, title := "t", body := "b" } seedNews
    { id := 1, title := "x", body := "y", post_image := "z", status := 0 } (by decide)
  exact ⟨h9.1 (by decide), (h1.2.1 (by decide)).1⟩

/-- C8: the multi-id news lookup returns exactly the subset of the
collection whose id is a member of the requested id list — membership is
equivalent to matching, multiplicities are preserved, the result is a
subsequence of the store, and missing ids are silently omitted (the handler
is total and never fails). -/
theorem multi_id_lookup_exact (ns : List News) (ids : List Int) :
    (∀ n : News, n ∈ get_multiple_news ns ids ↔ (n ∈ ns ∧ n.id ∈ ids))
    ∧ (∀ n : News, (get_multiple_news ns ids).count n
        = if n.id ∈ ids then ns.count n else 0)
    ∧ (get_multiple_news ns ids).Sublist ns := by
  refine ⟨?_, ?_, List.filter_sublist ns⟩
  · intro n
    unfold get_multiple_news
    rw [List.mem_filter]
    simp
  · intro n
    by_cases h : n.id ∈ ids
    · rw [if_pos h]
      exact List.count_filter (by simpa using h)
    · rw [if_neg h, List.count_eq_zero]
      intro hmem
      unfold get_multiple_news at hmem
      rw [List.mem_filter] at hmem
      exact h (by simpa using hmem.2)

/-- C2 counterexample: on the seed collection, an edit request for id 1
carrying status 1 is answered with the request message itself, while the
stored post-edit entity keeps its prior status 0 — so the returned value
differs from the entity as stored after the edit. -/
theorem edit_news_reply_deviates_from_store :
    (edit_news seedNews
        { id := 1, title := "T", body := "B", post_image := "I", status := 1 }).2
      = .ok { id := 1, title := "T", body := "B", post_image := "I", status := 1 }
    ∧ get_news
        (edit_news seedNews
          { id := 1, title := "T", body := "B", post_image := "I", status := 1 }).1 1
      = .ok { id := 1, title := "T", body := "B", post_image := "I", status := 0 }
    ∧ ({ id := 1, title := "T", body := "B", post_image := "I", status := 1 } : News)
      ≠ { id := 1, title := "T", body := "B", post_image := "I", status := 0 } := by
  refine ⟨rfl, rfl, by decide⟩

/-- C2 amended: for every News edit request whose id matches an existing
entity (unique-ids invariant), the edit applies exactly the supplied title,
body and post_image to the stored entity and keeps its id; the reply is the
request message, which agrees with the stored post-edit entity on id,
title, body and post_image but carries the request status, while the store
keeps the prior status. -/
theorem edit_news_applies_supplied_fields (ns : List News) (req : News) (n : News)
    (hnd : (ns.map News.id).Nodup) (hn : n ∈ ns) (hid : n.id = req.id) :
    (edit_news ns req).2 = .ok req
    ∧ get_news (edit_news ns req).1 req.id = .ok (applyNewsEdit n req)
    ∧ (applyNewsEdit n req).id = n.id
    ∧ (applyNewsEdit n req).title = req.title
    ∧ (applyNewsEdit n req).body = req.body
    ∧ (applyNewsEdit n req).post_image = req.post_image
    ∧ ((edit_news ns req).1).length = ns.length
    ∧ (∀ m ∈ ns, m.id ≠ req.id → m ∈ (edit_news ns req).1) := by
  have h := edit_news_found hnd hn hid
  refine ⟨h.1, ?_, rfl, rfl, rfl, rfl, h.2.1, h.2.2.2.1⟩
  unfold get_news
  rw [h.2.2.2.2.2]

/-- Witness for the amended C2 on the seed collection. -/
theorem edit_news_applies_supplied_fields_witness :
    (edit_news seedNews
        { id := 1, title := "U", body := "V", post_image := "W", status := 1 }).2
      = .ok { id := 1, title := "U", body := "V", post_image := "W", status := 1 }
    ∧ get_news
        (edit_news seedNews
          { id := 1, title := "U", body := "V", post_image := "W", status := 1 }).1 1
      = .ok (applyNewsEdit
          { id := 1, title := "Note 1", body := "Content 1",
            post_image := "Post image 1", status := 0 }
          { id := 1, title := "U", body := "V", post_image := "W", status := 1 }) := by
  have h := edit_news_applies_supplied_fields seedNews
    { id := 1, title := "U", body := "V", post_image := "W", status := 1 }
    { id := 1, title := "Note 1", body := "Content 1",
      post_image := "Post image 1", status := 0 }
    (by decide) (by decide) (by decide)
  exact ⟨h.1, h.2.1⟩

/-- C9: the edit handler leaves the stored entity's id and status unchanged,
whatever status value the request carries; only title, body and post_image
of the stored entity are overwritten, and every other entity is untouched. -/
theorem edit_news_keeps_status_and_id (ns : List News) (req : News) (n : News)
    (hnd : (ns.map News.id).Nodup) (hn : n ∈ ns) (hid : n.id = req.id) :
    ∃ stored : News,
      (edit_news ns req).1.find? (fun m => m.id == req.id) = some stored
      ∧ stored.id = n.id
      ∧ stored.status = n.status
      ∧ stored.title = req.title
      ∧ stored.body = req.body
      ∧ stored.post_image = req.post_image
      ∧ (∀ m ∈ (edit_news ns req).1, m = stored ∨ (m ∈ ns ∧ m.id ≠ req.id)) := by
  have h := edit_news_found hnd hn hid
  exact ⟨applyNewsEdit n req, h.2.2.2.2.2, rfl, rfl, rfl, rfl, rfl, h.2.2.2.2.1⟩

/-- Witness for C9: editing seed news id 2 with a request carrying status 7
stores an entity that keeps id 2 and status 1. -/
theorem edit_news_keeps_status_and_id_witness :
    ∃ stored : News,
      (edit_news seedNews
          { id := 2, title := "X", body := "Y", post_image := "Z", status := 7 }).1.find?
        (fun m => m.id == (2 : Int)) = some stored
      ∧ stored.id = 2
      ∧ stored.status = 1
      ∧ stored.title = "X"
      ∧ stored.body = "Y"
      ∧ stored.post_image = "Z"
      ∧ (∀ m ∈ (edit_news seedNews
          { id := 2, title := "X", body := "Y", post_image := "Z", status := 7 }).1,
          m = stored ∨ (m ∈ seedNews ∧ m.id ≠ 2)) :=
  edit_news_keeps_status_and_id seedNews
    { id := 2, title := "X", body := "Y", post_image := "Z", status := 7 }
    { id := 2, title := "Note 2", body := "Content 2",
      post_image := "Post image 2", status := 1 }
    (by decide) (by decide) (by decide)

/-- C4: patching a user modifies only the fields explicitly supplied in the
request (name, username, email); every other field of the entity (id,
phone, website, address, company, and any unsupplied optional field)
retains its prior value, every other entity in the collection is untouched,
and the handler returns the full post-patch entity as stored. -/
theorem patch_user_frame (us : List User) (req : PatchUserRequest) (u : User)
    (hnd : (us.map User.id).Nodup) (hu : u ∈ us) (hid : u.id = req.id) :
    (patch_user us req).2 = .ok { user := some (applyUserPatch u req) }
    ∧ get_user (patch_user us req).1 req.id = .ok (applyUserPatch u req)
    ∧ (applyUserPatch u req).id = u.id
    ∧ (applyUserPatch u req).phone = u.phone
    ∧ (applyUserPatch u req).website = u.website
    ∧ (applyUserPatch u req).address = u.address
    ∧ (applyUserPatch u req).company = u.company
    ∧ (applyUserPatch u req).name = req.name.getD u.name
    ∧ (applyUserPatch u req).username = req.username.getD u.username
    ∧ (applyUserPatch u req).email = req.email.getD u.email
    ∧ (req.name = none → (applyUserPatch u req).name = u.name)
    ∧ (req.username = none → (applyUserPatch u req).username = u.username)
    ∧ (req.email = none → (applyUserPatch u req).email = u.email)
    ∧ ((patch_user us req).1).length = us.length
    ∧ (∀ v ∈ us, v.id ≠ req.id → v ∈ (patch_user us req).1)
    ∧ (∀ v ∈ (patch_user us req).1,
        v = applyUserPatch u req ∨ (v ∈ us ∧ v.id ≠ req.id)) := by
  have h := patch_user_found hnd hu hid
  have hf := applyUserPatch_fields u req
  refine ⟨h.1, ?_, hf.1, hf.2.1, hf.2.2.1, hf.2.2.2.1, hf.2.2.2.2.1, hf.2.2.2.2.2.1,
    hf.2.2.2.2.2.2.1, hf.2.2.2.2.2.2.2, ?_, ?_, ?_, h.2.1, h.2.2.2.1, h.2.2.2.2.1⟩
  · unfold get_user
    rw [h.2.2.2.2.2]
  · intro hnone
    rw [hf.2.2.2.2.2.1, hnone]
    rfl
  · intro hnone
    rw [hf.2.2.2.2.2.2.1, hnone]
    rfl
  · intro hnone
    rw [hf.2.2.2.2.2.2.2, hnone]
    rfl

/-- Witness for C4, the spec example: patching only the name of seed user 1
yields name "New Name" with username and email unchanged from the seed. -/
theorem patch_user_frame_witness :
    (applyUserPatch
        { id := 1, name := "Leanne Graham", username := "Bret",
          email := "Sincere@april.biz", address := none,
          phone := "1-770-736-8031 x56442", website := "hildegard.org",
          company := none }
        { id := 1, name := some ("New Name"), username := none, email := none }).name
      = "New Name"
    ∧ (applyUserPatch
        { id := 1, name := "Leanne Graham", username := "Bret",
          email := "Sincere@april.biz", address := none,
          phone := "1-770-736-8031 x56442", website := "hildegard.org",
          company := none }
        { id := 1, name := some ("New Name"), username := none, email := none }).username
      = "Bret"
    ∧ (applyUserPatch
        { id := 1, name := "Leanne Graham", username := "Bret",
          email := "Sincere@april.biz", address := none,
          phone := "1-770-736-8031 x56442", website := "hildegard.org",
          company := none }
        { id := 1, name := some ("New Name"), username := none, email := none }).email
      = "Sincere@april.biz" := by
  have h := patch_user_frame seedUsers
    { id := 1, name := some ("New Name"), username := none, email := none }
    { id := 1, name := "Leanne Graham", username := "Bret",
      email := "Sincere@april.biz", address := none,
      phone := "1-770-736-8031 x56442", website := "hildegard.org",
      company := none }
    (by decide) (by decide) (by decide)
  exact ⟨h.2.2.2.2.2.2.2.1,
    h.2.2.2.2.2.2.2.2.2.2.2.1 rfl,
    h.2.2.2.2.2.2.2.2.2.2.2.2.1 rfl⟩

/-- C5 counterexample at the wrap boundary: inserting into a collection that
already holds ids -2^31 and 2^31 - 1 assigns the wrapped id -2^31, and the
subsequent lookup of that id returns the pre-existing entity, not the
inserted one. -/
theorem insert_get_roundtrip_boundary_cex :
    (add_news
        [({ id := -2 ^ 31, title := "old", body := "b", post_image := "i", status := 0 } : News),
         { id := 2 ^ 31 - 1, title := "m", body := "b", post_image := "i", status := 0 }]
        { id := 0, title := "new", body := "c", post_image := "j", status := 0 }).2.id
      = -2 ^ 31
    ∧ get_news
        (add_news
          [({ id := -2 ^ 31, title := "old", body := "b", post_image := "i", status := 0 } : News),
           { id := 2 ^ 31 - 1, title := "m", body := "b", post_image := "i", status := 0 }]
          { id := 0, title := "new", body := "c", post_image := "j", status := 0 }).1
        (add_news
          [({ id := -2 ^ 31, title := "old", body := "b", post_image := "i", status := 0 } : News),
           { id := 2 ^ 31 - 1, title := "m", body := "b", post_image := "i", status := 0 }]
          { id := 0, title := "new", body := "c", post_image := "j", status := 0 }).2.id
      = .ok { id := -2 ^ 31, title := "old", body := "b", post_image := "i", status := 0 }
    ∧ ({ id := -2 ^ 31, title := "old", body := "b", post_image := "i", status := 0 } : News)
      ≠ (add_news
          [({ id := -2 ^ 31, title := "old", body := "b", post_image := "i", status := 0 } : News),
           { id := 2 ^ 31 - 1, title := "m", body := "b", post_image := "i", status := 0 }]
          { id := 0, title := "new", body := "c", post_image := "j", status := 0 }).2 := by
  refine ⟨by decide, rfl, by decide⟩
